import Mathlib

/-!
Verification of the unified storage client of `wazz_shared/storage.py`.

The Python module exposes a `StorageClient` facade which dispatches every
operation either to a local-filesystem backend (rooted at the hard-coded
directory `./storage`) or to an S3-compatible object store.  This file gives a
shallow embedding of the client's operations:

* the host filesystem is a finite map from component paths to byte lists,
  together with the set of existing directories (`FS`);
* the remote object store is a finite association list from key strings to
  byte lists (`S3State`);
* object keys and local paths are parsed into `/`-separated components exactly
  as `pathlib.PurePosixPath` does (empty and `"."` components are dropped),
  and `os.path.dirname` / `os.makedirs` are embedded faithfully — in
  particular `os.makedirs("", exist_ok=True)` raises, which the Python code
  hits whenever a destination path has no directory component;
* each fallible operation returns `Except StorageError`.
-/

deriving instance DecidableEq for Except

namespace WazzStorage

/-- Byte content of a file (each entry one byte value). -/
abbrev Bytes := List Nat

/-- A filesystem path, as its list of `/`-separated components. -/
abbrev FPath := List String

/-! ## Path-string parsing (pathlib / os.path embedding) -/

/-- Split a character list on `'/'`; accumulator holds the current component
reversed.  Mirrors splitting a POSIX path string on the separator. -/
def splitSlashAux (cur : List Char) : List Char → List (List Char)
  | [] => [cur.reverse]
  | c :: cs => if c = '/' then cur.reverse :: splitSlashAux [] cs else splitSlashAux (c :: cur) cs

/-- All `'/'`-separated chunks of a string (including empty chunks). -/
def splitSlash (s : List Char) : List String :=
  (splitSlashAux [] s).map fun l => String.mk l

/-- `pathlib` keeps a path component iff it is neither empty nor `"."`. -/
def keepPart (c : String) : Bool := c ≠ "" && c ≠ "."

/-- Parse a key or path string into its components, as
`pathlib.PurePosixPath` does: split on `/`, drop empty and `"."` parts
(`".."` is kept — the source performs no traversal sanitization). -/
def pathParts (s : String) : FPath := (splitSlash s.data).filter keepPart

/-- Join components with `/` — the semantics of `str()` on a relative
`pathlib` path (POSIX separator). -/
def joinPath : FPath → String
  | [] => ""
  | [c] => c
  | c :: rest => c ++ "/" ++ joinPath rest

/-- A path component a real key would use: nonempty, not `"."`, and free of
the separator (so that joining components and re-splitting is lossless). -/
def goodComp (c : String) : Bool := keepPart c && c.data.all fun ch => ch ≠ '/'

/-- Drop trailing `'/'` characters. -/
def dropTrailingSlashes (cs : List Char) : List Char :=
  (cs.reverse.dropWhile fun c => c = '/').reverse

/-- `os.path.dirname` for POSIX paths: everything before the last `'/'`
(with trailing separators stripped unless the head is all separators);
`""` when the path has no `'/'` at all. -/
def posixDirname (p : String) : String :=
  let head := (p.data.reverse.dropWhile fun c => c ≠ '/').reverse
  if head.isEmpty then ""
  else if head.all fun c => c = '/' then String.mk head
  else String.mk (dropTrailingSlashes head)

/-! ## Errors raised by the storage client -/

/-- Abstract error taxonomy of the storage client (spec §7):
`sourceNotFound` is the `FileNotFoundError` raised by `upload_file` for a
missing source, `objectNotFound` the not-found error of `download_file`,
`destDirError` the `FileNotFoundError` raised by `os.makedirs("")` when a
destination path has no directory component, and `backendFailure` wraps any
other filesystem / object-store error. -/
inductive StorageError
  | sourceNotFound (p : String)
  | objectNotFound (k : String)
  | destDirError (p : String)
  | backendFailure (msg : String)
deriving DecidableEq, Repr

/-! ## The host filesystem model -/

/-- Association-list lookup of a file's bytes by its path. -/
def lookupA : List (FPath × Bytes) → FPath → Option Bytes
  | [], _ => none
  | e :: es, p => if e.1 = p then some e.2 else lookupA es p

/-- Remove every entry stored at path `p`. -/
def removeEntry (l : List (FPath × Bytes)) (p : FPath) : List (FPath × Bytes) :=
  l.filter fun e => decide (e.1 ≠ p)

/-- A snapshot of the host filesystem: the regular files (path and bytes)
and the existing directories. -/
structure FS where
  files : List (FPath × Bytes)
  dirs : List FPath
deriving DecidableEq, Repr

/-- Is there a regular file at `p`? -/
def FS.isFileB (fs : FS) (p : FPath) : Bool := fs.files.any fun e => decide (e.1 = p)

/-- Is there a directory at `p`? -/
def FS.isDirB (fs : FS) (p : FPath) : Bool := fs.dirs.any fun q => decide (q = p)

/-- `os.path.exists` / `Path.exists`: true for files and directories alike. -/
def FS.existsB (fs : FS) (p : FPath) : Bool := fs.isFileB p || fs.isDirB p

/-- Bytes of the regular file at `p`, if any. -/
def FS.lookupFile (fs : FS) (p : FPath) : Option Bytes := lookupA fs.files p

/-- `open(p, 'wb')` followed by a full write: replace whatever file was at
`p` with the given bytes. -/
def FS.writeFile (fs : FS) (p : FPath) (b : Bytes) : FS :=
  { fs with files := (p, b) :: removeEntry fs.files p }

/-- `Path.unlink` of the regular file at `p`. -/
def FS.removeFile (fs : FS) (p : FPath) : FS :=
  { fs with files := removeEntry fs.files p }

/-- The nonempty initial segments of a path, shortest first (`p.take 1` up to
`p` itself). -/
def prefixesNE (p : FPath) : List FPath :=
  (List.range p.length).map fun i => p.take (i + 1)

/-- `Path.mkdir(parents=True, exist_ok=True)` / `os.makedirs(exist_ok=True)`
on component path `p`: fails if a regular file occupies `p` or any ancestor,
otherwise records `p` and all its ancestors as directories. -/
def FS.mkdirp (fs : FS) (p : FPath) : Except StorageError FS :=
  if (prefixesNE p).any fun q => fs.isFileB q then
    Except.error (StorageError.backendFailure "FileExistsError")
  else
    Except.ok { fs with dirs := prefixesNE p ++ fs.dirs }

/-- `os.makedirs(d, exist_ok=True)` on a path string: raises
`FileNotFoundError` when `d` is the empty string (this is exactly what
`os.makedirs(os.path.dirname(file_path), exist_ok=True)` does when
`file_path` has no directory component), otherwise creates the directories. -/
def FS.makedirsStr (fs : FS) (d : String) : Except StorageError FS :=
  if d = "" then Except.error (StorageError.destDirError d)
  else fs.mkdirp (pathParts d)

/-- `shutil.copy2 src dst`: if `dst` is a directory the copy lands at
`dst/basename(src)`; copying a path onto itself raises `SameFileError`;
a missing or directory source and a directory (final) destination raise. -/
def FS.copy2 (fs : FS) (src dst : FPath) : Except StorageError FS :=
  let dst' := if fs.isDirB dst then dst ++ [src.getLastD ""] else dst
  if fs.existsB src ∧ src = dst' then
    Except.error (StorageError.backendFailure "SameFileError")
  else
    match fs.lookupFile src with
    | some b =>
      if fs.isDirB dst' then Except.error (StorageError.backendFailure "IsADirectoryError")
      else Except.ok (fs.writeFile dst' b)
    | none =>
      Except.error (StorageError.backendFailure
        (if fs.isDirB src then "IsADirectoryError" else "FileNotFoundError"))

/-- A physically consistent filesystem: no path is simultaneously a regular
file and a directory. -/
def FS.Wf (fs : FS) : Prop := ∀ e ∈ fs.files, ∀ q ∈ fs.dirs, e.1 ≠ q

instance (fs : FS) : Decidable fs.Wf := by
  unfold FS.Wf; infer_instance

/-- A filesystem whose directory set is closed under file ancestry: every
proper nonempty initial segment of a file's path is an existing directory
(true of any snapshot a real filesystem can be in). -/
def FS.Closed (fs : FS) : Prop :=
  ∀ e ∈ fs.files, ∀ i < e.1.length, 0 < i → e.1.take i ∈ fs.dirs

instance (fs : FS) : Decidable fs.Closed := by
  unfold FS.Closed; infer_instance

/-- A filesystem whose file paths are built from canonical key components
(nonempty, separator-free, not `"."`) — true of every path the client
itself writes from `/`-delimited object keys. -/
def FS.Good (fs : FS) : Prop := ∀ e ∈ fs.files, ∀ c ∈ e.1, goodComp c = true

instance (fs : FS) : Decidable fs.Good := by
  unfold FS.Good; infer_instance

/-! ## The remote object store model -/

/-- The S3/MinIO bucket contents: an association list from object-key strings
to raw bytes (keys are unique in any state the client produces). -/
abbrev S3State := List (String × Bytes)

/-- Lookup of an object's bytes by its key string. -/
def s3lookup : S3State → String → Option Bytes
  | [], _ => none
  | e :: es, k => if e.1 = k then some e.2 else s3lookup es k

/-- Remove an object by key (S3 `delete_object`, idempotent). -/
def s3remove (s3 : S3State) (k : String) : S3State :=
  s3.filter fun e => decide (e.1 ≠ k)

/-- Store an object under a key, replacing any previous content
(S3 `PUT` / `upload_file` — raw bytes, no transformation). -/
def s3insert (s3 : S3State) (k : String) (b : Bytes) : S3State :=
  (k, b) :: s3remove s3 k

/-! ## The storage client

`storage.py` lines 41-45: local mode hard-codes `Path("./storage")` as the
base directory (none of the configured directories is consulted) and calls
`mkdir(exist_ok=True)` on it. -/

/-- The relevant fields of `SharedSettings` (`config.py`).  `upload_dir` and
`output_dir` are the only local directory settings the configuration carries;
the storage client reads none of them. -/
structure SharedSettings where
  use_local_storage : Bool := true
  upload_dir : String := "./uploads"
  output_dir : String := "./processed_audio"
  s3_endpoint_url : String := "http://localhost:9000"
  s3_access_key : String := "minioadmin"
  s3_secret_key : String := "minioadmin"
  s3_bucket_name : String := "wazz-audio"
  s3_region : String := "us-east-1"
  s3_use_ssl : Bool := false
deriving DecidableEq, Repr

/-- The hard-coded local base directory `Path("./storage")`. -/
def basePathLocal : FPath := pathParts "./storage"

/-- Local-mode construction (`__init__`, lines 41-45): `Path("./storage")`
becomes the base path and `mkdir(exist_ok=True)` is run on it, which fails
with `FileExistsError` if a regular file occupies `./storage`.  The settings
argument is read only for the mode flag; no configured directory is used. -/
def initLocalStorage (settings : SharedSettings) (fs : FS) :
    Except StorageError (FPath × FS) :=
  if settings.use_local_storage then
    if fs.isFileB basePathLocal then
      Except.error (StorageError.backendFailure "FileExistsError")
    else
      Except.ok (basePathLocal, { fs with dirs := basePathLocal :: fs.dirs })
  else
    Except.error (StorageError.backendFailure "not local mode")

/-! ## Operations, local mode (`use_local = True` branches) -/

/-- `upload_file` (lines 82-102), local branch: check the source with
`os.path.exists`, create the destination's parent directories, then
`shutil.copy2` the raw bytes to `base_path / object_key`. -/
def upload_file_local (base : FPath) (fs : FS) (filePath objectKey : String) :
    Except StorageError FS :=
  if fs.existsB (pathParts filePath) = false then
    Except.error (StorageError.sourceNotFound filePath)
  else
    match fs.mkdirp (base ++ pathParts objectKey).dropLast with
    | Except.error e => Except.error e
    | Except.ok fs1 => fs1.copy2 (pathParts filePath) (base ++ pathParts objectKey)

/-- `download_file` (lines 132-153), local branch: raise the not-found error
when `base_path / object_key` does not exist, then
`os.makedirs(os.path.dirname(file_path), exist_ok=True)` (which raises when
the destination has no directory component), then `shutil.copy2`. -/
def download_file_local (base : FPath) (fs : FS) (objectKey filePath : String) :
    Except StorageError FS :=
  if fs.existsB (base ++ pathParts objectKey) = false then
    Except.error (StorageError.objectNotFound objectKey)
  else
    match fs.makedirsStr (posixDirname filePath) with
    | Except.error e => Except.error e
    | Except.ok fs1 => fs1.copy2 (base ++ pathParts objectKey) (pathParts filePath)

/-- `delete_file` (lines 189-206), local branch: `unlink` when the path
exists (raising `IsADirectoryError` when a directory occupies it), otherwise
a logged warning and no state change. -/
def delete_file_local (base : FPath) (fs : FS) (objectKey : String) :
    Except StorageError FS :=
  if fs.isFileB (base ++ pathParts objectKey) then
    Except.ok (fs.removeFile (base ++ pathParts objectKey))
  else if fs.isDirB (base ++ pathParts objectKey) then
    Except.error (StorageError.backendFailure "IsADirectoryError")
  else Except.ok fs

/-- `file_exists` (lines 216-229), local branch: `Path.exists`, true for
files and directories alike; total, never raises. -/
def file_exists_local (base : FPath) (fs : FS) (objectKey : String) : Bool :=
  fs.existsB (base ++ pathParts objectKey)

/-- Does `p` lie in the subtree rooted at `sp` (inclusive)? -/
def underDir (sp p : FPath) : Prop := sp = p.take sp.length

instance (sp p : FPath) : Decidable (underDir sp p) := by
  unfold underDir; infer_instance

/-- `list_files` (lines 262-284), local branch: `[]` when
`base_path / prefix` does not exist; otherwise `rglob('*')` on it, which
descends only directories — on a regular file it scans nothing and yields
`[]` — and reports every regular file strictly below the search path
relative to the base path, with `/` separators. -/
def list_files_local (base : FPath) (fs : FS) (pre : String) : List String :=
  if fs.existsB (base ++ pathParts pre) = false then []
  else if fs.isDirB (base ++ pathParts pre) then
    fs.files.filterMap fun e =>
      if underDir (base ++ pathParts pre) e.1 ∧ e.1 ≠ base ++ pathParts pre then
        some (joinPath (e.1.drop base.length))
      else none
  else []

/-! ## Operations, remote mode (S3/MinIO branches) -/

/-- `upload_file` (lines 82-95, 103-106), remote branch: the same
`os.path.exists` source check, then `boto3 upload_file` of the raw bytes
(which raises if the source is not a regular file). -/
def upload_file_remote (fs : FS) (s3 : S3State) (filePath objectKey : String) :
    Except StorageError (FS × S3State) :=
  if fs.existsB (pathParts filePath) = false then
    Except.error (StorageError.sourceNotFound filePath)
  else
    match fs.lookupFile (pathParts filePath) with
    | some b => Except.ok (fs, s3insert s3 objectKey b)
    | none => Except.error (StorageError.backendFailure "IsADirectoryError")

/-- `download_file` (lines 132-143, 154-158), remote branch: first
`os.makedirs(os.path.dirname(file_path), exist_ok=True)` — before any object
lookup — then `boto3 download_file`, which raises the not-found client error
when the key is absent and otherwise writes the raw bytes. -/
def download_file_remote (fs : FS) (s3 : S3State) (objectKey filePath : String) :
    Except StorageError (FS × S3State) :=
  match fs.makedirsStr (posixDirname filePath) with
  | Except.error e => Except.error e
  | Except.ok fs1 =>
    match s3lookup s3 objectKey with
    | none => Except.error (StorageError.objectNotFound objectKey)
    | some b =>
      if fs1.isDirB (pathParts filePath) then
        Except.error (StorageError.backendFailure "IsADirectoryError")
      else
        Except.ok (fs1.writeFile (pathParts filePath) b, s3)

/-- `delete_file` (lines 207-214), remote branch: `delete_object`, which the
object store treats as idempotent. -/
def delete_file_remote (s3 : S3State) (objectKey : String) : S3State :=
  s3remove s3 objectKey

/-- The `head_object` existence probe of `file_exists` (line 233): found
keys answer with their metadata, absent keys with a not-found error (an
arbitrary backend error is any other `Except.error`). -/
def head_object (s3 : S3State) (k : String) : Except String Bytes :=
  match s3lookup s3 k with
  | some b => Except.ok b
  | none => Except.error "404"

/-- The bare `except:` of `file_exists` (lines 231-236): a successful probe
answers `true` and every error — not only not-found — becomes `false`. -/
def exists_of_probe (r : Except String Bytes) : Bool :=
  match r with
  | Except.ok _ => true
  | Except.error _ => false

/-- `file_exists` (lines 216-225, 230-236), remote branch. -/
def file_exists_remote (s3 : S3State) (k : String) : Bool :=
  exists_of_probe (head_object s3 k)

/-- The page bound of a single `list_objects_v2` request (default and
maximum `MaxKeys`). -/
def s3MaxKeys : Nat := 1000

/-- `list_files` (lines 285-293), remote branch: one unpaginated
`list_objects_v2` request with the given prefix, answering at most one page
(`MaxKeys = 1000`) of the stored keys of which the prefix is a byte-wise
string prefix (an absent `Contents` entry yields `[]`).  The page is
modelled as the first 1000 matches in store order; the real service pages
in key order, but nothing proved here depends on which 1000 are returned. -/
def list_files_remote (s3 : S3State) (pre : String) : List String :=
  ((s3.map Prod.fst).filter fun k => pre.data.isPrefixOf k.data).take s3MaxKeys

/-! ## Basic lemmas about the filesystem model -/

theorem removeEntry_cons_self (e : FPath × Bytes) (es : List (FPath × Bytes)) (p : FPath)
    (h : e.1 = p) : removeEntry (e :: es) p = removeEntry es p := by
  simp [removeEntry, List.filter_cons, h]

theorem removeEntry_cons_ne (e : FPath × Bytes) (es : List (FPath × Bytes)) (p : FPath)
    (h : e.1 ≠ p) : removeEntry (e :: es) p = e :: removeEntry es p := by
  simp [removeEntry, List.filter_cons, h]

theorem mem_removeEntry (l : List (FPath × Bytes)) (p : FPath) (e : FPath × Bytes) :
    e ∈ removeEntry l p ↔ e ∈ l ∧ e.1 ≠ p := by
  simp [removeEntry, List.mem_filter]

theorem lookupA_removeEntry_ne (l : List (FPath × Bytes)) (p q : FPath) (h : q ≠ p) :
    lookupA (removeEntry l p) q = lookupA l q := by
  induction l with
  | nil => rfl
  | cons e es ih =>
    by_cases hp : e.1 = p
    · rw [removeEntry_cons_self e es p hp, ih, lookupA,
        if_neg (fun hq : e.1 = q => h ((hq ▸ hp : q = p)))]
    · rw [removeEntry_cons_ne e es p hp, lookupA, lookupA, ih]

theorem lookupA_removeEntry_self (l : List (FPath × Bytes)) (p : FPath) :
    lookupA (removeEntry l p) p = none := by
  induction l with
  | nil => rfl
  | cons e es ih =>
    by_cases hp : e.1 = p
    · rw [removeEntry_cons_self e es p hp, ih]
    · rw [removeEntry_cons_ne e es p hp, lookupA, if_neg hp, ih]

theorem lookupA_mem (l : List (FPath × Bytes)) (p : FPath) (b : Bytes)
    (h : lookupA l p = some b) : (p, b) ∈ l := by
  induction l with
  | nil => simp [lookupA] at h
  | cons e es ih =>
    rw [lookupA] at h
    by_cases hp : e.1 = p
    · rw [if_pos hp] at h
      obtain ⟨p1, b1⟩ := e
      cases hp
      cases Option.some.inj h
      exact List.mem_cons_self _ _
    · rw [if_neg hp] at h
      exact List.mem_cons_of_mem _ (ih h)

theorem isFileB_iff (fs : FS) (p : FPath) :
    fs.isFileB p = true ↔ ∃ e ∈ fs.files, e.1 = p := by
  simp [FS.isFileB, List.any_eq_true]

theorem isDirB_iff (fs : FS) (p : FPath) : fs.isDirB p = true ↔ p ∈ fs.dirs := by
  simp [FS.isDirB, List.any_eq_true]

theorem isFileB_of_lookup (fs : FS) (p : FPath) (b : Bytes)
    (h : fs.lookupFile p = some b) : fs.isFileB p = true :=
  (isFileB_iff fs p).2 ⟨(p, b), lookupA_mem fs.files p b h, rfl⟩

theorem lookupA_isSome (l : List (FPath × Bytes)) (p : FPath)
    (h : ∃ e ∈ l, e.1 = p) : ∃ b, lookupA l p = some b := by
  induction l with
  | nil => simp at h
  | cons e1 es ih =>
    rw [lookupA]
    by_cases h1 : e1.1 = p
    · exact ⟨e1.2, if_pos h1⟩
    · rw [if_neg h1]
      obtain ⟨e, he, hp⟩ := h
      rcases List.mem_cons.1 he with h2 | h2
      · exact absurd (h2 ▸ hp) h1
      · exact ih ⟨e, h2, hp⟩

theorem lookup_of_isFileB (fs : FS) (p : FPath) (h : fs.isFileB p = true) :
    ∃ b, fs.lookupFile p = some b :=
  lookupA_isSome fs.files p ((isFileB_iff fs p).1 h)

@[simp] theorem writeFile_dirs (fs : FS) (p : FPath) (b : Bytes) :
    (fs.writeFile p b).dirs = fs.dirs := rfl

@[simp] theorem removeFile_dirs (fs : FS) (p : FPath) :
    (fs.removeFile p).dirs = fs.dirs := rfl

@[simp] theorem writeFile_isDirB (fs : FS) (p q : FPath) (b : Bytes) :
    (fs.writeFile p b).isDirB q = fs.isDirB q := rfl

@[simp] theorem lookup_writeFile_self (fs : FS) (p : FPath) (b : Bytes) :
    (fs.writeFile p b).lookupFile p = some b := by
  simp [FS.writeFile, FS.lookupFile, lookupA]

theorem lookup_writeFile_ne (fs : FS) (p q : FPath) (b : Bytes) (h : q ≠ p) :
    (fs.writeFile p b).lookupFile q = fs.lookupFile q := by
  unfold FS.writeFile FS.lookupFile
  rw [lookupA, if_neg (fun hq : p = q => h hq.symm)]
  exact lookupA_removeEntry_ne fs.files p q h

theorem isFileB_writeFile_self (fs : FS) (p : FPath) (b : Bytes) :
    (fs.writeFile p b).isFileB p = true :=
  isFileB_of_lookup _ p b (lookup_writeFile_self fs p b)

theorem isFileB_writeFile_ne (fs : FS) (p q : FPath) (b : Bytes) (h : q ≠ p) :
    (fs.writeFile p b).isFileB q = fs.isFileB q := by
  rw [← Bool.coe_iff_coe]
  simp only [isFileB_iff, FS.writeFile]
  constructor
  · rintro ⟨e, he, rfl⟩
    rcases List.mem_cons.1 he with h2 | h2
    · exact absurd (congrArg Prod.fst h2) h
    · exact ⟨e, ((mem_removeEntry _ _ _).1 h2).1, rfl⟩
  · rintro ⟨e, he, rfl⟩
    exact ⟨e, List.mem_cons_of_mem _ ((mem_removeEntry _ _ _).2 ⟨he, h⟩), rfl⟩

theorem isFileB_removeFile_self (fs : FS) (p : FPath) :
    (fs.removeFile p).isFileB p = false := by
  rw [Bool.eq_false_iff]
  intro h
  obtain ⟨e, he, hp⟩ := (isFileB_iff _ p).1 h
  exact ((mem_removeEntry _ _ _).1 he).2 hp

theorem isFileB_removeFile_ne (fs : FS) (p q : FPath) (h : q ≠ p) :
    (fs.removeFile p).isFileB q = fs.isFileB q := by
  rw [← Bool.coe_iff_coe]
  simp only [isFileB_iff, FS.removeFile]
  constructor
  · rintro ⟨e, he, rfl⟩
    exact ⟨e, ((mem_removeEntry _ _ _).1 he).1, rfl⟩
  · rintro ⟨e, he, rfl⟩
    exact ⟨e, (mem_removeEntry _ _ _).2 ⟨he, h⟩, rfl⟩

/-! ## Lemmas about directory creation -/

theorem mem_prefixesNE (p q : FPath) :
    q ∈ prefixesNE p ↔ ∃ i < p.length, q = p.take (i + 1) := by
  simp [prefixesNE, List.mem_map, eq_comm]

theorem take_mem_prefixesNE (p : FPath) (j : Nat) (h1 : 0 < j) (h2 : j ≤ p.length) :
    p.take j ∈ prefixesNE p :=
  (mem_prefixesNE p _).2 ⟨j - 1, by omega, by congr 1; omega⟩

theorem length_of_mem_prefixesNE (p q : FPath) (h : q ∈ prefixesNE p) :
    0 < q.length ∧ q.length ≤ p.length := by
  obtain ⟨i, hi, rfl⟩ := (mem_prefixesNE p q).1 h
  rw [List.length_take]
  omega

theorem mkdirp_ok (fs : FS) (p : FPath)
    (h : ∀ q ∈ prefixesNE p, fs.isFileB q = false) :
    fs.mkdirp p = Except.ok { fs with dirs := prefixesNE p ++ fs.dirs } := by
  unfold FS.mkdirp
  rw [if_neg]
  intro hc
  obtain ⟨q, hq, hf⟩ := List.any_eq_true.1 hc
  rw [h q hq] at hf
  cases hf

theorem mkdirp_ok_inv (fs fs1 : FS) (p : FPath) (h : fs.mkdirp p = Except.ok fs1) :
    fs1.files = fs.files ∧ fs1.dirs = prefixesNE p ++ fs.dirs := by
  unfold FS.mkdirp at h
  split at h
  · cases h
  · cases h
    exact ⟨rfl, rfl⟩

theorem makedirsStr_ok_inv (fs fs1 : FS) (d : String) (h : fs.makedirsStr d = Except.ok fs1) :
    d ≠ "" ∧ fs1.files = fs.files ∧ fs1.dirs = prefixesNE (pathParts d) ++ fs.dirs := by
  unfold FS.makedirsStr at h
  split at h
  · cases h
  · next hne => exact ⟨hne, mkdirp_ok_inv fs fs1 _ h⟩

theorem makedirsStr_ok (fs : FS) (d : String) (hne : d ≠ "")
    (h : ∀ q ∈ prefixesNE (pathParts d), fs.isFileB q = false) :
    fs.makedirsStr d =
      Except.ok { fs with dirs := prefixesNE (pathParts d) ++ fs.dirs } := by
  unfold FS.makedirsStr
  rw [if_neg hne]
  exact mkdirp_ok fs _ h

/-! ## Lemmas about `copy2` -/

theorem copy2_ok (fs : FS) (src dst : FPath) (b : Bytes)
    (hl : fs.lookupFile src = some b) (hd : fs.isDirB dst = false) (hne : src ≠ dst) :
    fs.copy2 src dst = Except.ok (fs.writeFile dst b) := by
  unfold FS.copy2
  simp only [hd, Bool.false_eq_true, if_false, hl]
  rw [if_neg (fun hc => hne hc.2)]

theorem copy2_ok_inv (fs fs1 : FS) (src dst : FPath) (h : fs.copy2 src dst = Except.ok fs1) :
    ∃ b, fs.lookupFile src = some b ∧
      ((fs.isDirB dst = false ∧ fs1 = fs.writeFile dst b) ∨
        (fs.isDirB dst = true ∧ fs1 = fs.writeFile (dst ++ [src.getLastD ""]) b)) := by
  unfold FS.copy2 at h
  by_cases hd : fs.isDirB dst = true
  · simp only [hd, if_true] at h
    split at h
    · cases h
    · split at h
      · next b1 heq =>
        split at h
        · cases h
        · cases h
          exact ⟨b1, heq, Or.inr ⟨hd, rfl⟩⟩
      · cases h
  · rw [Bool.not_eq_true] at hd
    simp only [hd, Bool.false_eq_true, if_false] at h
    split at h
    · cases h
    · split at h
      · next b1 heq =>
        cases h
        exact ⟨b1, heq, Or.inl ⟨hd, rfl⟩⟩
      · cases h

theorem copy2_ok_dirs (fs fs1 : FS) (src dst : FPath) (h : fs.copy2 src dst = Except.ok fs1) :
    fs1.dirs = fs.dirs := by
  obtain ⟨b, _, hc | hc⟩ := copy2_ok_inv fs fs1 src dst h <;> rw [hc.2] <;> rfl

theorem copy2_ok_existsB (fs fs1 : FS) (src dst : FPath)
    (h : fs.copy2 src dst = Except.ok fs1) : fs1.existsB dst = true := by
  obtain ⟨b, _, ⟨hd, rfl⟩ | ⟨hd, rfl⟩⟩ := copy2_ok_inv fs fs1 src dst h
  · unfold FS.existsB
    rw [isFileB_writeFile_self]
    rfl
  · unfold FS.existsB
    rw [writeFile_isDirB, hd, Bool.or_true]

theorem lookupFile_eq_of_files_eq (fs1 fs2 : FS) (h : fs1.files = fs2.files) (p : FPath) :
    fs1.lookupFile p = fs2.lookupFile p := by
  unfold FS.lookupFile
  rw [h]

theorem isFileB_eq_of_files_eq (fs1 fs2 : FS) (h : fs1.files = fs2.files) (p : FPath) :
    fs1.isFileB p = fs2.isFileB p := by
  unfold FS.isFileB
  rw [h]

theorem not_mem_prefixesNE_dropLast (l : FPath) : l ∉ prefixesNE l.dropLast := by
  intro h
  have h1 := length_of_mem_prefixesNE _ _ h
  rw [List.length_dropLast] at h1
  omega

/-! ## Splitting and joining path strings -/

theorem splitSlashAux_no_slash (cs acc : List Char) (h : '/' ∉ cs) :
    splitSlashAux acc cs = [acc.reverse ++ cs] := by
  induction cs generalizing acc with
  | nil => simp [splitSlashAux]
  | cons c cs ih =>
    rw [splitSlashAux, if_neg (fun hc : c = '/' => h (hc ▸ List.mem_cons_self c cs)),
      ih (c :: acc) (fun hc => h (List.mem_cons_of_mem c hc))]
    simp

theorem splitSlashAux_append (c cs acc : List Char) (h : '/' ∉ c) :
    splitSlashAux acc (c ++ '/' :: cs) = (acc.reverse ++ c) :: splitSlashAux [] cs := by
  induction c generalizing acc with
  | nil => simp [splitSlashAux]
  | cons a c ih =>
    rw [List.cons_append, splitSlashAux,
      if_neg (fun hc : a = '/' => h (hc ▸ List.mem_cons_self a c)),
      ih (a :: acc) (fun hc => h (List.mem_cons_of_mem a hc))]
    simp

theorem no_slash_of_mem_splitSlashAux (cs : List Char) (acc : List Char)
    (hacc : '/' ∉ acc) (l : List Char) (hl : l ∈ splitSlashAux acc cs) : '/' ∉ l := by
  induction cs generalizing acc with
  | nil =>
    rw [splitSlashAux] at hl
    rcases List.mem_singleton.1 hl with rfl
    simpa using hacc
  | cons c cs ih =>
    rw [splitSlashAux] at hl
    by_cases hc : c = '/'
    · rw [if_pos hc] at hl
      rcases List.mem_cons.1 hl with rfl | hmem
      · simpa using hacc
      · exact ih [] (List.not_mem_nil _) hmem
    · rw [if_neg hc] at hl
      exact ih (c :: acc) (by simp [hacc, Ne.symm hc]) hl

theorem data_append (s t : String) : (s ++ t).data = s.data ++ t.data := rfl

theorem pathParts_joinPath (p : FPath) (h : ∀ c ∈ p, goodComp c = true) :
    pathParts (joinPath p) = p := by
  induction p with
  | nil => rfl
  | cons c rest ih =>
    have hc := h c (List.mem_cons_self c rest)
    have hcslash : '/' ∉ c.data := by
      intro hmem
      have := (List.all_eq_true.1 (Bool.and_elim_right hc)) '/' hmem
      simp at this
    have hckeep : keepPart c = true := Bool.and_elim_left hc
    cases rest with
    | nil =>
      show (splitSlash (joinPath [c]).data).filter keepPart = [c]
      rw [joinPath]
      unfold splitSlash
      rw [splitSlashAux_no_slash c.data [] hcslash]
      simp [hckeep]
    | cons c2 rest2 =>
      show (splitSlash (joinPath (c :: c2 :: rest2)).data).filter keepPart = c :: c2 :: rest2
      have hjoin : joinPath (c :: c2 :: rest2) = c ++ "/" ++ joinPath (c2 :: rest2) := rfl
      rw [hjoin]
      have hsep : "/".data = ['/'] := by decide
      have hdata : (c ++ "/" ++ joinPath (c2 :: rest2)).data =
          c.data ++ '/' :: (joinPath (c2 :: rest2)).data := by
        rw [data_append, data_append, hsep, List.append_assoc, List.singleton_append]
      rw [hdata]
      unfold splitSlash
      rw [splitSlashAux_append c.data _ [] hcslash]
      rw [List.map_cons, List.filter_cons]
      simp only [List.reverse_nil, List.nil_append]
      have hmk : String.mk c.data = c := rfl
      rw [hmk, hckeep, if_pos rfl]
      congr 1
      exact ih fun x hx => h x (List.mem_cons_of_mem c hx)

theorem s3lookup_insert_self (s3 : S3State) (k : String) (b : Bytes) :
    s3lookup (s3insert s3 k b) k = some b := by
  simp [s3insert, s3lookup]

theorem s3lookup_remove_self (s3 : S3State) (k : String) :
    s3lookup (s3remove s3 k) k = none := by
  induction s3 with
  | nil => rfl
  | cons e es ih =>
    by_cases hp : e.1 = k
    · have : s3remove (e :: es) k = s3remove es k := by
        simp [s3remove, List.filter_cons, hp]
      rw [this, ih]
    · have : s3remove (e :: es) k = e :: s3remove es k := by
        simp [s3remove, List.filter_cons, hp]
      rw [this, s3lookup, if_neg hp, ih]

theorem joinPath_inj (p q : FPath) (hp : ∀ c ∈ p, goodComp c = true)
    (hq : ∀ c ∈ q, goodComp c = true) (h : joinPath p = joinPath q) : p = q := by
  rw [← pathParts_joinPath p hp, ← pathParts_joinPath q hq, h]

theorem goodComp_of_mem_pathParts (s : String) (c : String) (h : c ∈ pathParts s) :
    goodComp c = true := by
  unfold pathParts at h
  have hkeep := List.of_mem_filter h
  have hmem := List.mem_of_mem_filter h
  unfold splitSlash at hmem
  obtain ⟨l, hl, rfl⟩ := List.mem_map.1 hmem
  have hslash := no_slash_of_mem_splitSlashAux s.data [] (List.not_mem_nil _) l hl
  unfold goodComp
  rw [hkeep, Bool.true_and, List.all_eq_true]
  intro ch hch
  have : ch ∈ (String.mk l).data := hch
  simp only [decide_eq_true_eq]
  intro hchc
  exact hslash (hchc ▸ this)

/-! ## Inversion lemmas for the storage operations -/

theorem upload_file_local_ok_shape (base : FPath) (fs fs1 : FS) (src k : String)
    (h : upload_file_local base fs src k = Except.ok fs1) :
    ∃ fsm, fs.mkdirp (base ++ pathParts k).dropLast = Except.ok fsm ∧
      fsm.copy2 (pathParts src) (base ++ pathParts k) = Except.ok fs1 := by
  unfold upload_file_local at h
  split at h
  · cases h
  · split at h
    · cases h
    · next fsm heq => exact ⟨fsm, heq, h⟩

theorem upload_file_local_ok_char (base : FPath) (fs fs1 : FS) (src k : String) (b : Bytes)
    (hl : fs.lookupFile (pathParts src) = some b)
    (hkd : fs.isDirB (base ++ pathParts k) = false)
    (h : upload_file_local base fs src k = Except.ok fs1) :
    fs1.files =
      (base ++ pathParts k, b) :: removeEntry fs.files (base ++ pathParts k) ∧
    fs1.dirs = prefixesNE (base ++ pathParts k).dropLast ++ fs.dirs := by
  obtain ⟨fsm, hm, hc⟩ := upload_file_local_ok_shape base fs fs1 src k h
  obtain ⟨hfiles, hdirs⟩ := mkdirp_ok_inv fs fsm _ hm
  have hdm : fsm.isDirB (base ++ pathParts k) = false := by
    rw [Bool.eq_false_iff]
    intro hc1
    rcases List.mem_append.1 (hdirs ▸ (isDirB_iff _ _).1 hc1) with h1 | h1
    · exact not_mem_prefixesNE_dropLast _ h1
    · rw [Bool.eq_false_iff] at hkd
      exact hkd ((isDirB_iff _ _).2 h1)
  obtain ⟨b1, hb1, hcase⟩ := copy2_ok_inv fsm fs1 _ _ hc
  have heq : fsm.lookupFile (pathParts src) = fs.lookupFile (pathParts src) :=
    lookupFile_eq_of_files_eq _ _ hfiles _
  rw [heq, hl] at hb1
  cases Option.some.inj hb1
  rcases hcase with ⟨_, rfl⟩ | ⟨hcontra, _⟩
  · refine ⟨?_, ?_⟩
    · show (base ++ pathParts k, b) :: removeEntry fsm.files (base ++ pathParts k) = _
      rw [hfiles]
    · show fsm.dirs = _
      rw [hdirs]
  · rw [hdm] at hcontra
    cases hcontra

theorem download_file_local_ok (base : FPath) (fs fs1 : FS) (k dst : String) (b : Bytes)
    (hex : fs.existsB (base ++ pathParts k) = true)
    (hmk : fs.makedirsStr (posixDirname dst) = Except.ok fs1)
    (hlk : fs1.lookupFile (base ++ pathParts k) = some b)
    (hdir : fs1.isDirB (pathParts dst) = false)
    (hne : base ++ pathParts k ≠ pathParts dst) :
    download_file_local base fs k dst = Except.ok (fs1.writeFile (pathParts dst) b) := by
  unfold download_file_local
  rw [if_neg (by rw [hex]; simp), hmk]
  exact copy2_ok fs1 _ _ b hlk hdir hne

theorem download_file_remote_ok (fs fs1 : FS) (s3 : S3State) (k dst : String) (b : Bytes)
    (hmk : fs.makedirsStr (posixDirname dst) = Except.ok fs1)
    (hlk : s3lookup s3 k = some b)
    (hdir : fs1.isDirB (pathParts dst) = false) :
    download_file_remote fs s3 k dst =
      Except.ok (fs1.writeFile (pathParts dst) b, s3) := by
  unfold download_file_remote
  simp only [hmk, hlk, hdir, Bool.false_eq_true, if_false]

theorem list_files_local_sound (base : FPath) (fs : FS) (pre : String) :
    ∀ s ∈ list_files_local base fs pre, ∃ e ∈ fs.files,
      underDir (base ++ pathParts pre) e.1 ∧
      e.1 ≠ base ++ pathParts pre ∧ s = joinPath (e.1.drop base.length) := by
  intro s hs
  unfold list_files_local at hs
  split at hs
  · exact absurd hs (List.not_mem_nil s)
  · split at hs
    · obtain ⟨e, he, hfe⟩ := List.mem_filterMap.1 hs
      split at hfe
      · next hcond =>
        exact ⟨e, he, hcond.1, hcond.2, (Option.some.inj hfe).symm⟩
      · cases hfe
    · exact absurd hs (List.not_mem_nil s)

/-! ## Claim theorems -/

/-- C5: for every nonexistent source path and every object key, `upload_file`
raises the source-not-found error before any backend operation takes place
(the check precedes both branches; the error return carries no changed
state), in local and remote mode alike. -/
theorem wazz_C5_source_check (base : FPath) (fs : FS) (s3 : S3State) (src k : String)
    (h : fs.existsB (pathParts src) = false) :
    upload_file_local base fs src k = Except.error (StorageError.sourceNotFound src) ∧
    upload_file_remote fs s3 src k = Except.error (StorageError.sourceNotFound src) := by
  constructor
  · unfold upload_file_local
    rw [if_pos h]
  · unfold upload_file_remote
    rw [if_pos h]

/-- C5 witness: the scenario `upload_file("/nonexistent/path", "k")` on a
store holding one unrelated file. -/
theorem wazz_C5_witness :
    FS.existsB ⟨[(["other"], [1])], []⟩ (pathParts "/nonexistent/path") = false ∧
    upload_file_local basePathLocal ⟨[(["other"], [1])], []⟩ "/nonexistent/path" "k" =
      Except.error (StorageError.sourceNotFound "/nonexistent/path") ∧
    upload_file_remote ⟨[(["other"], [1])], []⟩ [] "/nonexistent/path" "k" =
      Except.error (StorageError.sourceNotFound "/nonexistent/path") := by
  refine ⟨by decide, ?_⟩
  have h := wazz_C5_source_check basePathLocal ⟨[(["other"], [1])], []⟩ []
    "/nonexistent/path" "k" (by decide)
  exact h

/-- C2: after `upload_file(src, k)` succeeds `file_exists(k)` is true, and
after `delete_file(k)` succeeds `file_exists(k)` is false, in both backends
(the local delete case assumes the physically-consistent store `FS.Wf`). -/
theorem wazz_C2_existence :
    (∀ (base : FPath) (fs fs1 : FS) (src k : String),
      upload_file_local base fs src k = Except.ok fs1 →
      file_exists_local base fs1 k = true) ∧
    (∀ (base : FPath) (fs fs1 : FS) (k : String), fs.Wf →
      delete_file_local base fs k = Except.ok fs1 →
      file_exists_local base fs1 k = false) ∧
    (∀ (fs fs1 : FS) (s3 s31 : S3State) (src k : String),
      upload_file_remote fs s3 src k = Except.ok (fs1, s31) →
      file_exists_remote s31 k = true) ∧
    (∀ (s3 : S3State) (k : String),
      file_exists_remote (delete_file_remote s3 k) k = false) := by
  refine ⟨?_, ?_, ?_, ?_⟩
  · intro base fs fs1 src k h
    obtain ⟨fsm, _, hc⟩ := upload_file_local_ok_shape base fs fs1 src k h
    exact copy2_ok_existsB fsm fs1 _ _ hc
  · intro base fs fs1 k hwf h
    unfold delete_file_local at h
    split at h
    · next hf =>
      cases h
      unfold file_exists_local FS.existsB
      rw [isFileB_removeFile_self, Bool.false_or]
      show fs.isDirB (base ++ pathParts k) = false
      rw [Bool.eq_false_iff]
      intro hc
      obtain ⟨e, he, hep⟩ := (isFileB_iff fs _).1 hf
      exact hwf e he _ ((isDirB_iff fs _).1 hc) hep
    · split at h
      · cases h
      · next hf hd =>
        cases h
        unfold file_exists_local FS.existsB
        rw [Bool.not_eq_true] at hf hd
        rw [hf, hd]
        rfl
  · intro fs fs1 s3 s31 src k h
    unfold upload_file_remote at h
    split at h
    · cases h
    · split at h
      · next b heq =>
        cases h
        unfold file_exists_remote head_object
        rw [s3lookup_insert_self]
        rfl
      · cases h
  · intro s3 k
    unfold file_exists_remote head_object delete_file_remote
    rw [s3lookup_remove_self]
    rfl

/-- C2 witness: upload then delete of the key `"k"` in both modes. -/
theorem wazz_C2_witness :
    file_exists_local basePathLocal
      ⟨[(["storage", "k"], [7]), (["src"], [7])], [["storage"]]⟩ "k" = true ∧
    file_exists_local basePathLocal ⟨[(["src"], [7])], [["storage"]]⟩ "k" = false ∧
    file_exists_remote [("k", [7])] "k" = true ∧
    file_exists_remote (delete_file_remote [("k", [7])] "k") "k" = false := by
  refine ⟨?_, ?_, ?_, ?_⟩
  · exact wazz_C2_existence.1 basePathLocal ⟨[(["src"], [7])], []⟩
      ⟨[(["storage", "k"], [7]), (["src"], [7])], [["storage"]]⟩ "src" "k" (by decide)
  · exact wazz_C2_existence.2.1 basePathLocal
      ⟨[(["storage", "k"], [7]), (["src"], [7])], [["storage"]]⟩
      ⟨[(["src"], [7])], [["storage"]]⟩ "k" (by decide) (by decide)
  · exact wazz_C2_existence.2.2.1 ⟨[(["src"], [7])], []⟩ ⟨[(["src"], [7])], []⟩
      [] [("k", [7])] "src" "k" (by decide)
  · exact wazz_C2_existence.2.2.2 [("k", [7])] "k"

/-- C3: `file_exists` returns a boolean and never raises; the bare
`except:` around the remote probe converts every backend error — not only
not-found — into the return value `false`, and a successful probe into
`true` (the local branch `FS.existsB` is a total boolean function by
construction). -/
theorem wazz_C3_probe_errors_to_false :
    (∀ e : String, exists_of_probe (Except.error e) = false) ∧
    (∀ b : Bytes, exists_of_probe (Except.ok b) = true) :=
  ⟨fun _ => rfl, fun _ => rfl⟩

/-- C4 counterexample: on an empty remote store, `download_file` of the
absent key `"missing/key"` to the bare destination `"out.wav"` raises the
destination-directory error from `os.makedirs("")` — which runs before the
object lookup — not the claimed not-found error. -/
theorem wazz_C4_counterexample :
    download_file_remote ⟨[], []⟩ [] "missing/key" "out.wav" =
      Except.error (StorageError.destDirError "") ∧
    StorageError.destDirError "" ≠ StorageError.objectNotFound "missing/key" := by
  decide

/-- C4 amended: an absent key makes `download_file` raise the not-found
error — in local mode unconditionally (the existence check precedes the
destination handling), in remote mode provided creating the destination's
parent directories succeeds (it runs first and fails e.g. for a destination
with no directory component). -/
theorem wazz_C4_absent_key_not_found :
    (∀ (base : FPath) (fs : FS) (k dst : String),
      fs.existsB (base ++ pathParts k) = false →
      download_file_local base fs k dst =
        Except.error (StorageError.objectNotFound k)) ∧
    (∀ (fs fs1 : FS) (s3 : S3State) (k dst : String),
      fs.makedirsStr (posixDirname dst) = Except.ok fs1 →
      s3lookup s3 k = none →
      download_file_remote fs s3 k dst =
        Except.error (StorageError.objectNotFound k)) := by
  constructor
  · intro base fs k dst h
    unfold download_file_local
    rw [if_pos h]
  · intro fs fs1 s3 k dst hmk hl
    unfold download_file_remote
    rw [hmk, hl]

/-- C4 witness: the empty store with key `"missing/key"`, destination
`"tmp/out.wav"`, in both modes. -/
theorem wazz_C4_witness :
    download_file_local basePathLocal ⟨[], [["storage"]]⟩ "missing/key" "tmp/out.wav" =
      Except.error (StorageError.objectNotFound "missing/key") ∧
    download_file_remote ⟨[], [["storage"]]⟩ [] "missing/key" "tmp/out.wav" =
      Except.error (StorageError.objectNotFound "missing/key") := by
  constructor
  · exact wazz_C4_absent_key_not_found.1 basePathLocal ⟨[], [["storage"]]⟩
      "missing/key" "tmp/out.wav" (by decide)
  · exact wazz_C4_absent_key_not_found.2 ⟨[], [["storage"]]⟩
      ⟨[], [["tmp"], ["storage"]]⟩ [] "missing/key" "tmp/out.wav" (by decide) (by decide)

/-- C6 counterexample: after uploading `"k/x"`, a directory occupies the
local path of key `"k"`, so `delete_file("k")` raises `IsADirectoryError`
(`Path.exists` is true for the directory and `unlink` fails) — on the first
call and, the state being unchanged by the failed call, on the second call
too. -/
theorem wazz_C6_counterexample :
    upload_file_local basePathLocal ⟨[(["src"], [7])], []⟩ "src" "k/x" =
      Except.ok ⟨[(["storage", "k", "x"], [7]), (["src"], [7])],
        [["storage"], ["storage", "k"]]⟩ ∧
    delete_file_local basePathLocal
      ⟨[(["storage", "k", "x"], [7]), (["src"], [7])],
        [["storage"], ["storage", "k"]]⟩ "k" =
      Except.error (StorageError.backendFailure "IsADirectoryError") := by
  decide

/-- C6 amended: provided no directory occupies the key's local path (the
key is not a proper `/`-prefix of another stored key), `delete_file(k)`
twice never raises on the second call: the first call succeeds (removing
the file or warning when absent) and the second is a no-op returning the
state unchanged. -/
theorem wazz_C6_idempotent_delete (fs : FS) (k : String)
    (hd : fs.isDirB (basePathLocal ++ pathParts k) = false) :
    ∃ fs1, delete_file_local basePathLocal fs k = Except.ok fs1 ∧
      delete_file_local basePathLocal fs1 k = Except.ok fs1 := by
  unfold delete_file_local
  by_cases hf : fs.isFileB (basePathLocal ++ pathParts k) = true
  · refine ⟨fs.removeFile (basePathLocal ++ pathParts k), ?_, ?_⟩
    · rw [if_pos hf]
    · have h1 : ¬((fs.removeFile (basePathLocal ++ pathParts k)).isFileB
          (basePathLocal ++ pathParts k) = true) := by
        rw [isFileB_removeFile_self]
        exact Bool.false_ne_true
      have h2 : ¬((fs.removeFile (basePathLocal ++ pathParts k)).isDirB
          (basePathLocal ++ pathParts k) = true) := by
        show ¬(fs.isDirB (basePathLocal ++ pathParts k) = true)
        rw [hd]
        exact Bool.false_ne_true
      rw [if_neg h1, if_neg h2]
  · rw [Bool.not_eq_true] at hf
    refine ⟨fs, ?_, ?_⟩ <;>
      rw [if_neg (by rw [hf]; exact Bool.false_ne_true),
        if_neg (by rw [hd]; exact Bool.false_ne_true)]

/-- C6 witness: deleting the absent key `"gone"` twice on a store holding
one unrelated file. -/
theorem wazz_C6_witness :
    FS.isDirB ⟨[(["storage", "k"], [7])], [["storage"]]⟩
      (basePathLocal ++ pathParts "gone") = false ∧
    ∃ fs1, delete_file_local basePathLocal
        ⟨[(["storage", "k"], [7])], [["storage"]]⟩ "gone" = Except.ok fs1 ∧
      delete_file_local basePathLocal fs1 "gone" = Except.ok fs1 :=
  ⟨by decide, wazz_C6_idempotent_delete ⟨[(["storage", "k"], [7])], [["storage"]]⟩
    "gone" (by decide)⟩

/-- C8 counterexample: local-mode construction hard-codes `./storage`.
With the only local directory settings of the configuration pointed at
`/custom/...`, the base path is still `["storage"]`, unrelated to the
configured directories; and with a regular file named `storage` in the
working directory, construction fails with `FileExistsError` rather than
succeeding unconditionally. -/
theorem wazz_C8_counterexample :
    initLocalStorage { upload_dir := "/custom/root", output_dir := "/custom/out" }
        ⟨[], []⟩ = Except.ok (basePathLocal, ⟨[], [["storage"]]⟩) ∧
    basePathLocal ≠ pathParts "/custom/root" ∧
    basePathLocal ≠ pathParts "/custom/out" ∧
    initLocalStorage {} ⟨[(["storage"], [0])], []⟩ =
      Except.error (StorageError.backendFailure "FileExistsError") := by
  decide

/-- C8 amended: with `use_local_storage` true, construction uses the fixed
directory `./storage` — ignoring every configured directory — as the base
for all key mappings, creates it, and succeeds provided no regular file
occupies `./storage`; the result is the same for any two configurations in
local mode. -/
theorem wazz_C8_fixed_root (settings : SharedSettings) (fs : FS)
    (hm : settings.use_local_storage = true)
    (hf : fs.isFileB basePathLocal = false) :
    initLocalStorage settings fs =
      Except.ok (basePathLocal, { fs with dirs := basePathLocal :: fs.dirs }) ∧
    ∀ s2 : SharedSettings, s2.use_local_storage = true →
      initLocalStorage s2 fs = initLocalStorage settings fs := by
  have hrun : ∀ s3 : SharedSettings, s3.use_local_storage = true →
      initLocalStorage s3 fs =
        Except.ok (basePathLocal, { fs with dirs := basePathLocal :: fs.dirs }) := by
    intro s3 h3
    unfold initLocalStorage
    rw [if_pos h3, if_neg (by rw [hf]; exact Bool.false_ne_true)]
  exact ⟨hrun settings hm, fun s2 h2 => (hrun s2 h2).trans (hrun settings hm).symm⟩

/-- C8 witness: two distinct local-mode configurations on the empty
filesystem. -/
theorem wazz_C8_witness :
    initLocalStorage { upload_dir := "/elsewhere" } ⟨[], []⟩ =
      Except.ok (basePathLocal, ⟨[], [["storage"]]⟩) ∧
    initLocalStorage {} ⟨[], []⟩ =
      initLocalStorage { upload_dir := "/elsewhere" } ⟨[], []⟩ :=
  ⟨(wazz_C8_fixed_root { upload_dir := "/elsewhere" } ⟨[], []⟩ (by decide) (by decide)).1,
    (wazz_C8_fixed_root { upload_dir := "/elsewhere" } ⟨[], []⟩ (by decide) (by decide)).2
      {} (by decide)⟩

/-- C9: the claim is right and the code is wrong — with key `"k"` present,
`download_file("k", "out.wav")` must write the destination, but
`os.makedirs(os.path.dirname("out.wav"), exist_ok=True)` is
`os.makedirs("")`, which raises `FileNotFoundError` for every bare
destination filename, in both modes (the code contradicts its own
docstring, which reserves `FileNotFoundError` for an absent object). -/
theorem wazz_C9_bare_destination_fails :
    file_exists_local basePathLocal
      ⟨[(["storage", "k"], [7])], [["storage"]]⟩ "k" = true ∧
    download_file_local basePathLocal
      ⟨[(["storage", "k"], [7])], [["storage"]]⟩ "k" "out.wav" =
      Except.error (StorageError.destDirError "") ∧
    download_file_remote ⟨[], []⟩ [("k", [7])] "k" "out.wav" =
      Except.error (StorageError.destDirError "") := by
  decide

/-- C1 counterexample: even on a fresh store, uploading key `"k"` and then
downloading it to the bare destination `"out.wav"` does not reproduce the
bytes — the download raises the `os.makedirs("")` error instead of writing
the destination, in local mode (the remote pipeline fails identically, see
the C9 theorem). -/
theorem wazz_C1_counterexample :
    upload_file_local basePathLocal ⟨[(["src"], [7])], []⟩ "src" "k" =
      Except.ok ⟨[(["storage", "k"], [7]), (["src"], [7])], [["storage"]]⟩ ∧
    download_file_local basePathLocal
      ⟨[(["storage", "k"], [7]), (["src"], [7])], [["storage"]]⟩ "k" "out.wav" =
      Except.error (StorageError.destDirError "") := by
  decide

/-- C1 amended: `upload_file` followed by `download_file` of the same key
writes the destination with byte-identical content, in both modes, provided
the destination's parent-directory creation can succeed (its directory part
is nonempty and unobstructed) and no directory occupies the key's local
path or the destination path, and the destination differs from the stored
file's own path. -/
theorem wazz_C1_roundtrip :
    (∀ (fs fs1 : FS) (src k dst : String) (content : Bytes),
      fs.lookupFile (pathParts src) = some content →
      fs.isDirB (basePathLocal ++ pathParts k) = false →
      upload_file_local basePathLocal fs src k = Except.ok fs1 →
      posixDirname dst ≠ "" →
      (∀ q ∈ prefixesNE (pathParts (posixDirname dst)), fs1.isFileB q = false) →
      fs1.isDirB (pathParts dst) = false →
      pathParts dst ∉ prefixesNE (pathParts (posixDirname dst)) →
      pathParts dst ≠ basePathLocal ++ pathParts k →
      ∃ fs2, download_file_local basePathLocal fs1 k dst = Except.ok fs2 ∧
        fs2.lookupFile (pathParts dst) = some content) ∧
    (∀ (fs fs1 : FS) (s3 s31 : S3State) (src k dst : String) (content : Bytes),
      fs.lookupFile (pathParts src) = some content →
      upload_file_remote fs s3 src k = Except.ok (fs1, s31) →
      posixDirname dst ≠ "" →
      (∀ q ∈ prefixesNE (pathParts (posixDirname dst)), fs1.isFileB q = false) →
      fs1.isDirB (pathParts dst) = false →
      pathParts dst ∉ prefixesNE (pathParts (posixDirname dst)) →
      ∃ fs2, download_file_remote fs1 s31 k dst = Except.ok (fs2, s31) ∧
        fs2.lookupFile (pathParts dst) = some content) := by
  constructor
  · intro fs fs1 src k dst content hl hkd hup hdn h5 h6 h7 h8
    obtain ⟨hfiles1, hdirs1⟩ :=
      upload_file_local_ok_char basePathLocal fs fs1 src k content hl hkd hup
    have hlf1 : fs1.lookupFile (basePathLocal ++ pathParts k) = some content := by
      unfold FS.lookupFile
      rw [hfiles1, lookupA, if_pos rfl]
    have hex : fs1.existsB (basePathLocal ++ pathParts k) = true := by
      unfold FS.existsB
      rw [isFileB_of_lookup fs1 _ content hlf1, Bool.true_or]
    have hmk := makedirsStr_ok fs1 (posixDirname dst) hdn h5
    have hlk2 : ({ fs1 with dirs := prefixesNE (pathParts (posixDirname dst)) ++ fs1.dirs }
        : FS).lookupFile (basePathLocal ++ pathParts k) = some content :=
      (lookupFile_eq_of_files_eq _ fs1 rfl _).trans hlf1
    have hdir2 : ({ fs1 with dirs := prefixesNE (pathParts (posixDirname dst)) ++ fs1.dirs }
        : FS).isDirB (pathParts dst) = false := by
      rw [Bool.eq_false_iff]
      intro hc
      rcases List.mem_append.1 ((isDirB_iff _ _).1 hc) with h1 | h1
      · exact h7 h1
      · rw [Bool.eq_false_iff] at h6
        exact h6 ((isDirB_iff _ _).2 h1)
    have hne : basePathLocal ++ pathParts k ≠ pathParts dst := fun hc => h8 hc.symm
    exact ⟨_, download_file_local_ok basePathLocal fs1 _ k dst content
      hex hmk hlk2 hdir2 hne, lookup_writeFile_self _ _ _⟩
  · intro fs fs1 s3 s31 src k dst content hl hup hdn h5 h6 h7
    unfold upload_file_remote at hup
    split at hup
    · cases hup
    · split at hup
      · next b heq =>
        rw [hl] at heq
        cases Option.some.inj heq
        injection hup with h1
        injection h1 with h2 h3
        subst h2 h3
        have hmk := makedirsStr_ok fs (posixDirname dst) hdn h5
        have hdir2 : ({ fs with
            dirs := prefixesNE (pathParts (posixDirname dst)) ++ fs.dirs }
            : FS).isDirB (pathParts dst) = false := by
          rw [Bool.eq_false_iff]
          intro hc
          rcases List.mem_append.1 ((isDirB_iff _ _).1 hc) with h1 | h1
          · exact h7 h1
          · rw [Bool.eq_false_iff] at h6
            exact h6 ((isDirB_iff _ _).2 h1)
        exact ⟨_, download_file_remote_ok fs _ _ k dst content hmk
          (s3lookup_insert_self s3 k content) hdir2, lookup_writeFile_self _ _ _⟩
      · cases hup

/-- C1 witness: round trip of key `"k"` with content `[7]` to destination
`"tmp/out.wav"`, in both modes. -/
theorem wazz_C1_witness :
    (∃ fs2, download_file_local basePathLocal
        ⟨[(["storage", "k"], [7]), (["src"], [7])], [["storage"]]⟩ "k" "tmp/out.wav" =
        Except.ok fs2 ∧ fs2.lookupFile (pathParts "tmp/out.wav") = some [7]) ∧
    (∃ fs2, download_file_remote ⟨[(["src"], [7])], []⟩ [("k", [7])] "k" "tmp/out.wav" =
        Except.ok (fs2, [("k", [7])]) ∧
      fs2.lookupFile (pathParts "tmp/out.wav") = some [7]) := by
  constructor
  · exact wazz_C1_roundtrip.1 ⟨[(["src"], [7])], []⟩
      ⟨[(["storage", "k"], [7]), (["src"], [7])], [["storage"]]⟩ "src" "k" "tmp/out.wav"
      [7] (by decide) (by decide) (by decide) (by decide) (by decide) (by decide)
      (by decide) (by decide)
  · exact wazz_C1_roundtrip.2 ⟨[(["src"], [7])], []⟩ ⟨[(["src"], [7])], []⟩
      [] [("k", [7])] "src" "k" "tmp/out.wav" [7] (by decide) (by decide) (by decide)
      (by decide) (by decide) (by decide)

/-- C7 counterexample: with exactly the key `"ab/x"` stored in local mode,
`list_files("a")` returns `[]` — although `"a"` is a string prefix of
`"ab/x"` — because the local branch walks the directory `storage/a`, which
does not exist; the claimed string-prefix semantics holds only for the
remote branch. -/
theorem wazz_C7_counterexample :
    list_files_local basePathLocal
      ⟨[(["storage", "ab", "x"], [1])], [["storage", "ab"], ["storage"]]⟩ "a" =
      ([] : List String) ∧
    "a".data.isPrefixOf "ab/x".data = true ∧
    list_files_local basePathLocal
      ⟨[(["storage", "ab", "x"], [1])], [["storage", "ab"], ["storage"]]⟩ "" =
      ["ab/x"] := by
  decide

/-- C7 amended: in remote mode `list_files(prefix)` returns only stored
keys of which the prefix is a byte-wise string prefix, and exactly the set
of matching keys whenever they fit in the single unpaginated request's one
page (`MaxKeys = 1000`); no match yields `[]`, not an error.  In local mode
it returns exactly the stored keys lying strictly under the directory
`root/prefix` — component-wise extension, not string-prefix matching — and
`[]` both when that directory does not exist and when a regular file
occupies the search path (assuming an ancestry-closed filesystem). -/
theorem wazz_C7_listing :
    (∀ (s3 : S3State) (pre k : String),
      k ∈ list_files_remote s3 pre →
        (∃ b, (k, b) ∈ s3) ∧ pre.data.isPrefixOf k.data = true) ∧
    (∀ (s3 : S3State) (pre : String),
      ((s3.map Prod.fst).filter fun k => pre.data.isPrefixOf k.data).length ≤
        s3MaxKeys →
      ∀ k, k ∈ list_files_remote s3 pre ↔
        (∃ b, (k, b) ∈ s3) ∧ pre.data.isPrefixOf k.data = true) ∧
    (∀ (fs : FS) (pre : String), fs.Closed →
      ∀ s, s ∈ list_files_local basePathLocal fs pre ↔
        ∃ p b, (p, b) ∈ fs.files ∧
          underDir (basePathLocal ++ pathParts pre) p ∧
          p ≠ basePathLocal ++ pathParts pre ∧
          s = joinPath (p.drop basePathLocal.length)) := by
  refine ⟨?_, ?_, ?_⟩
  · intro s3 pre k hk
    unfold list_files_remote at hk
    obtain ⟨hm, hp⟩ := List.mem_filter.1 (List.mem_of_mem_take hk)
    obtain ⟨e, he, hek⟩ := List.mem_map.1 hm
    refine ⟨⟨e.2, ?_⟩, hp⟩
    obtain ⟨k1, b1⟩ := e
    cases hek
    exact he
  · intro s3 pre hlen k
    unfold list_files_remote
    rw [List.take_of_length_le hlen, List.mem_filter]
    constructor
    · rintro ⟨hm, hp⟩
      obtain ⟨e, he, hek⟩ := List.mem_map.1 hm
      refine ⟨⟨e.2, ?_⟩, hp⟩
      obtain ⟨k1, b1⟩ := e
      cases hek
      exact he
    · rintro ⟨⟨b, hb⟩, hp⟩
      exact ⟨List.mem_map.2 ⟨(k, b), hb, rfl⟩, hp⟩
  · intro fs pre hclosed
    by_cases hdir : fs.isDirB (basePathLocal ++ pathParts pre) = true
    · have hex : ¬(fs.existsB (basePathLocal ++ pathParts pre) = false) := by
        intro hc
        unfold FS.existsB at hc
        rw [hdir, Bool.or_true] at hc
        cases hc
      intro s
      unfold list_files_local
      rw [if_neg hex, if_pos hdir, List.mem_filterMap]
      constructor
      · rintro ⟨e, he1, hfe⟩
        split at hfe
        · next hcond =>
          exact ⟨e.1, e.2, (by obtain ⟨p1, b1⟩ := e; exact he1), hcond.1, hcond.2,
            (Option.some.inj hfe).symm⟩
        · cases hfe
      · rintro ⟨p, b, hpb, hu, hne, rfl⟩
        refine ⟨(p, b), hpb, ?_⟩
        show (if underDir (basePathLocal ++ pathParts pre) p ∧
            p ≠ basePathLocal ++ pathParts pre then
          some (joinPath (p.drop basePathLocal.length)) else none) = _
        rw [if_pos ⟨hu, hne⟩]
    · rw [Bool.not_eq_true] at hdir
      have hlist : list_files_local basePathLocal fs pre = [] := by
        unfold list_files_local
        by_cases hex : fs.existsB (basePathLocal ++ pathParts pre) = false
        · rw [if_pos hex]
        · rw [if_neg hex, if_neg (by rw [hdir]; exact Bool.false_ne_true)]
      intro s
      rw [hlist]
      simp only [List.not_mem_nil, false_iff]
      rintro ⟨p, b, hpb, hu, hne, rfl⟩
      unfold underDir at hu
      have hb1 : basePathLocal.length = 1 := by decide
      have h0 : 0 < (basePathLocal ++ pathParts pre).length := by
        rw [List.length_append, hb1]
        omega
      have hlt : (basePathLocal ++ pathParts pre).length < p.length := by
        by_contra hge
        push_neg at hge
        apply hne
        rw [hu, List.take_of_length_le hge]
      have hmem := hclosed (p, b) hpb (basePathLocal ++ pathParts pre).length hlt h0
      rw [← hu] at hmem
      have hdt : fs.isDirB (basePathLocal ++ pathParts pre) = true :=
        (isDirB_iff _ _).2 hmem
      rw [hdir] at hdt
      cases hdt

/-- C7 witness: remote listing of `"uploads/"` over two keys (well inside
one page), and local listing of `"ab"` over the store holding `"ab/x"`. -/
theorem wazz_C7_witness :
    ((([("uploads/f.wav", ([1] : Bytes)), ("other", [2])] : S3State).map
        Prod.fst).filter fun k => "uploads/".data.isPrefixOf k.data).length ≤
      s3MaxKeys ∧
    ("uploads/f.wav" ∈ list_files_remote
        [("uploads/f.wav", [1]), ("other", [2])] "uploads/" ↔
      (∃ b, ("uploads/f.wav", b) ∈ [("uploads/f.wav", [1]), ("other", [2])]) ∧
      "uploads/".data.isPrefixOf "uploads/f.wav".data = true) ∧
    (∀ s, s ∈ list_files_local basePathLocal
        ⟨[(["storage", "ab", "x"], [1])], [["storage", "ab"], ["storage"]]⟩ "ab" ↔
      ∃ p b,
        (p, b) ∈ [((["storage", "ab", "x"] : FPath), ([1] : Bytes))] ∧
        underDir (basePathLocal ++ pathParts "ab") p ∧
        p ≠ basePathLocal ++ pathParts "ab" ∧
        s = joinPath (p.drop basePathLocal.length)) :=
  ⟨by decide,
    wazz_C7_listing.2.1 [("uploads/f.wav", [1]), ("other", [2])] "uploads/"
      (by decide) "uploads/f.wav",
    wazz_C7_listing.2.2 ⟨[(["storage", "ab", "x"], [1])], [["storage", "ab"], ["storage"]]⟩
      "ab" (by decide)⟩

/-- C10: after a local upload of a key with at least two components, every
proper directory prefix of the key answers `file_exists` with true (the
directory created by `mkdir(parents=True)` makes `Path.exists` succeed),
while `list_files` yields only joins of stored regular-file paths and in
particular never that prefix (the prefix was never stored as a file —
stated for canonical component paths, `FS.Good`). -/
theorem wazz_C10_directory_prefix (fs fs1 : FS) (src k k1 : String) (i : Nat) (b : Bytes)
    (hgood : fs.Good)
    (hl : fs.lookupFile (pathParts src) = some b)
    (hkd : fs.isDirB (basePathLocal ++ pathParts k) = false)
    (hup : upload_file_local basePathLocal fs src k = Except.ok fs1)
    (hi0 : 0 < i) (hilt : i < (pathParts k).length)
    (hk1 : pathParts k1 = (pathParts k).take i)
    (hnf : fs.isFileB (basePathLocal ++ (pathParts k).take i) = false) :
    file_exists_local basePathLocal fs1 k1 = true ∧
    ∀ pre : String,
      (∀ s ∈ list_files_local basePathLocal fs1 pre, ∃ p b1, (p, b1) ∈ fs1.files ∧
        s = joinPath (p.drop basePathLocal.length)) ∧
      joinPath ((pathParts k).take i) ∉ list_files_local basePathLocal fs1 pre := by
  obtain ⟨hfiles1, hdirs1⟩ :=
    upload_file_local_ok_char basePathLocal fs fs1 src k b hl hkd hup
  have hb1 : basePathLocal.length = 1 := by decide
  constructor
  · have htake : (basePathLocal ++ pathParts k).take (basePathLocal.length + i) =
        basePathLocal ++ (pathParts k).take i := List.take_append i
    have hdl : (basePathLocal ++ pathParts k).dropLast.take (basePathLocal.length + i) =
        (basePathLocal ++ pathParts k).take (basePathLocal.length + i) := by
      rw [List.dropLast_eq_take, List.take_take]
      congr 1
      rw [List.length_append, hb1]
      omega
    have hmem : basePathLocal ++ (pathParts k).take i ∈
        prefixesNE (basePathLocal ++ pathParts k).dropLast := by
      rw [← htake, ← hdl]
      apply take_mem_prefixesNE
      · omega
      · rw [List.length_dropLast, List.length_append, hb1]
        omega
    have hdir : fs1.isDirB (basePathLocal ++ pathParts k1) = true := by
      rw [hk1]
      exact (isDirB_iff _ _).2 (by rw [hdirs1]; exact List.mem_append_left _ hmem)
    unfold file_exists_local FS.existsB
    rw [hdir, Bool.or_true]
  · intro pre
    constructor
    · intro s hs
      obtain ⟨e, he1, _, _, hjoin⟩ :=
        list_files_local_sound basePathLocal fs1 pre s hs
      refine ⟨e.1, e.2, ?_, hjoin⟩
      obtain ⟨p1, b1⟩ := e
      exact he1
    · intro hmem2
      obtain ⟨e, he1, hu, hne, hjoin⟩ :=
        list_files_local_sound basePathLocal fs1 pre _ hmem2
      have hgood1 : ∀ c ∈ e.1, goodComp c = true := by
        rw [hfiles1] at he1
        rcases List.mem_cons.1 he1 with rfl | hmem3
        · intro c hc
          rcases List.mem_append.1 hc with h1 | h1
          · exact (by decide : ∀ c ∈ basePathLocal, goodComp c = true) c h1
          · exact goodComp_of_mem_pathParts k c h1
        · exact hgood e ((mem_removeEntry _ _ _).1 hmem3).1
      have hgoodtake : ∀ c ∈ (pathParts k).take i, goodComp c = true :=
        fun c hc => goodComp_of_mem_pathParts k c (List.mem_of_mem_take hc)
      have hgooddrop : ∀ c ∈ e.1.drop basePathLocal.length, goodComp c = true :=
        fun c hc => hgood1 c (List.mem_of_mem_drop hc)
      have heq2 : (pathParts k).take i = e.1.drop basePathLocal.length :=
        joinPath_inj _ _ hgoodtake hgooddrop hjoin
      unfold underDir at hu
      have htk1 : e.1.take basePathLocal.length = basePathLocal := by
        have h1 : (basePathLocal ++ pathParts pre).take basePathLocal.length =
            basePathLocal := by
          rw [List.take_append_of_le_length (Nat.le_refl _), List.take_length]
        have h2 : basePathLocal.length ≤ (basePathLocal ++ pathParts pre).length := by
          rw [List.length_append]
          omega
        calc e.1.take basePathLocal.length
            = (e.1.take (basePathLocal ++ pathParts pre).length).take
                basePathLocal.length := by
              rw [List.take_take, Nat.min_eq_left h2]
          _ = (basePathLocal ++ pathParts pre).take basePathLocal.length := by
              rw [← hu]
          _ = basePathLocal := h1
      have he1eq : e.1 = basePathLocal ++ (pathParts k).take i := by
        conv_lhs => rw [← List.take_append_drop basePathLocal.length e.1]
        rw [htk1, ← heq2]
      have hlen_ne : e.1 ≠ basePathLocal ++ pathParts k := by
        rw [he1eq]
        intro hc
        have hcc := List.append_cancel_left hc
        have hlen : ((pathParts k).take i).length = i := by
          rw [List.length_take]
          omega
        rw [hcc] at hlen
        omega
      rw [hfiles1] at he1
      rcases List.mem_cons.1 he1 with rfl | hmem3
      · exact hlen_ne rfl
      · have hfmem : e ∈ fs.files := ((mem_removeEntry _ _ _).1 hmem3).1
        have hcontra : fs.isFileB (basePathLocal ++ (pathParts k).take i) = true :=
          (isFileB_iff _ _).2 ⟨e, hfmem, he1eq⟩
        rw [hnf] at hcontra
        cases hcontra

/-- C10 witness: uploading `"a/b"` and checking the prefix `"a"` (the
concrete listing of the whole namespace is `["a/b"]`). -/
theorem wazz_C10_witness :
    file_exists_local basePathLocal
      ⟨[(["storage", "a", "b"], [7]), (["src"], [7])],
        [["storage"], ["storage", "a"]]⟩ "a" = true ∧
    list_files_local basePathLocal
      ⟨[(["storage", "a", "b"], [7]), (["src"], [7])],
        [["storage"], ["storage", "a"]]⟩ "" = ["a/b"] ∧
    ((∀ s ∈ list_files_local basePathLocal
          ⟨[(["storage", "a", "b"], [7]), (["src"], [7])],
            [["storage"], ["storage", "a"]]⟩ "", ∃ p b1,
        (p, b1) ∈ ((⟨[(["storage", "a", "b"], [7]), (["src"], [7])],
          [["storage"], ["storage", "a"]]⟩ : FS)).files ∧
        s = joinPath (p.drop basePathLocal.length)) ∧
      joinPath ((pathParts "a/b").take 1) ∉ list_files_local basePathLocal
        ⟨[(["storage", "a", "b"], [7]), (["src"], [7])],
          [["storage"], ["storage", "a"]]⟩ "") := by
  have h := wazz_C10_directory_prefix ⟨[(["src"], [7])], []⟩
    ⟨[(["storage", "a", "b"], [7]), (["src"], [7])], [["storage"], ["storage", "a"]]⟩
    "src" "a/b" "a" 1 [7] (by decide) (by decide) (by decide) (by decide) (by decide)
    (by decide) (by decide) (by decide)
  exact ⟨h.1, by decide, h.2 ""⟩

end WazzStorage
